import Mathlib

/-!
Verification of the module-loader mechanism and bundler configuration of
the `webpack-mock-imported-function` repository.

The repository ships a bundler configuration (`webpack.config.js`) and a
README that walks through the generated `__webpack_require__` loader.  The
loader itself is not part of the repository's sources, so it is modelled
here from the specification: a process-wide registry (`installedModules`)
mapping module identifiers to module records, a heap of mutable Exports
Objects shared by reference among all importers, and a `require` operation
that caches, pre-inserts the record before running the module's defining
code, and surfaces initialization failures.
-/

/-- Module identifiers are opaque tokens; the bundler uses small integers. -/
abbrev ModuleId := Nat

/-- Heap addresses of Exports Objects; reference identity is address equality. -/
abbrev Addr := Nat

mutual
/-- Modelled from the spec: runtime values held in Exports Objects (the loader
code is not under the repository sources).  Functions carry their body as an
expression; `vref` is a reference to an Exports Object, giving the sharing
that makes mocking possible. -/
inductive Value where
  | vnum : Int → Value
  | vstr : String → Value
  | vlist : List Value → Value
  | vobj : List (String × Value) → Value
  | vfn : Expr → Value
  | vref : Addr → Value
  | vundef : Value

/-- Modelled from the spec: expressions occurring in module defining code and
in function bodies: constants, `require(id)`, property reads off an Exports
Object, and zero-argument calls. -/
inductive Expr where
  | const : Value → Expr
  | req : ModuleId → Expr
  | getProp : Expr → String → Expr
  | call : Expr → Expr
end

/-- Modelled from the spec: a statement of a module's defining code: define an
export, evaluate an expression for effect, or fail (a defining-code failure). -/
inductive Stmt where
  | setExport : String → Expr → Stmt
  | exprStmt : Expr → Stmt
  | fail : Stmt

/-- Modelled from the spec: a Module Record `{identifier, exports, initialized}`;
the exports field is the address of the module's Exports Object and `inited`
is the monotone initialization flag. -/
structure ModuleRecord where
  exportsA : Addr
  inited : Bool
deriving Repr, DecidableEq

/-- An Exports Object: a mutable mapping from export names to values. -/
abbrev ExportsObj := List (String × Value)

/-- Modelled from the spec: the process-wide state: the Module Registry
(`installedModules`), the heap of Exports Objects, an allocation counter, and
a log recording each execution of module defining code (used to state the
at-most-once execution guarantee). -/
structure St where
  installedModules : List (ModuleId × ModuleRecord)
  heap : List (Addr × ExportsObj)
  nextAddr : Addr
  execLog : List ModuleId

/-- The initial process state: empty registry, empty heap, nothing executed. -/
def initSt : St := { installedModules := [], heap := [], nextAddr := 0, execLog := [] }

/-- Association-list lookup (first binding wins). -/
def lookupA {α β : Type} [DecidableEq α] : List (α × β) → α → Option β
  | [], _ => none
  | (k, v) :: rest, k' => if k' = k then some v else lookupA rest k'

/-- Association-list insert/update in place. -/
def insertA {α β : Type} [DecidableEq α] : List (α × β) → α → β → List (α × β)
  | [], k, v => [(k, v)]
  | (k0, v0) :: rest, k, v =>
      if k = k0 then (k, v) :: rest else (k0, v0) :: insertA rest k v

/-- Registry lookup for a module id. -/
def regFind (st : St) (id : ModuleId) : Option ModuleRecord :=
  lookupA st.installedModules id

/-- Heap lookup of a named export on the Exports Object at an address. -/
def heapLookup (st : St) (a : Addr) (name : String) : Option Value :=
  (lookupA st.heap a).bind (fun obj => lookupA obj name)

/-- Property read off an Exports Object; a missing member reads as `vundef`. -/
def heapGet (st : St) (a : Addr) (name : String) : Value :=
  (heapLookup st a name).getD Value.vundef

/-- Modelled from the spec: the explicit `set(name, value)` mutator on an
Exports Object, the operation a test harness uses to mock an export in place. -/
def setProp (st : St) (a : Addr) (name : String) (v : Value) : St :=
  { st with heap := insertA st.heap a (insertA ((lookupA st.heap a).getD []) name v) }

/-- Modelled from the spec: the error taxonomy of the Loader.
`moduleInitError` is `ModuleInitializationError(id)`, `missingDefaultError` is
`MissingDefaultExportError(id)`; the remaining constructors are runtime faults
of defining code and fuel exhaustion of the interpreter. -/
inductive LErr where
  | moduleInitError : ModuleId → LErr
  | missingDefaultError : ModuleId → LErr
  | unknownModule : ModuleId → LErr
  | notAnObject : LErr
  | notAFunction : LErr
  | userFailure : LErr
  | outOfFuel : LErr
deriving Repr, DecidableEq

/-- Result of a loader computation: a value plus the state after it, or an
error plus the state at the point of failure (no rollback). -/
abbrev Res (α : Type) : Type := Except (LErr × St) (α × St)

/-- The state carried by a loader result, for either outcome. -/
def resSt {α : Type} : Res α → St
  | .ok (_, s) => s
  | .error (_, s) => s

/-- A bundle maps module identifiers to the module's defining code. -/
abbrev Bundle := ModuleId → Option (List Stmt)

/-- Modelled from the spec: wrapping of an error escaping a module's defining
code into `ModuleInitializationError` identifying the failing module: an
already-identified module failure and fuel exhaustion pass through unchanged. -/
def wrapInit (id : ModuleId) : LErr → LErr
  | .outOfFuel => .outOfFuel
  | .moduleInitError j => .moduleInitError j
  | .missingDefaultError j => .missingDefaultError j
  | _ => .moduleInitError id

/-- Modelled from the spec: step 2 of `require` on a cache miss: create a new
empty Exports Object, construct the record `{id, exports, initialized:false}`
and insert it into the Registry, before the defining code executes; the
execution of the defining code is recorded in the log. -/
def installRecord (st : St) (id : ModuleId) : St :=
  { installedModules := insertA st.installedModules id ⟨st.nextAddr, false⟩
    heap := insertA st.heap st.nextAddr []
    nextAddr := st.nextAddr + 1
    execLog := st.execLog ++ [id] }

/-- Modelled from the spec: the fuel-indexed interpreter bundling the three
mutually recursive operations: expression evaluation, execution of defining
code, and the Loader's `require`.  Structural recursion on fuel keeps every
concrete run computable by the kernel. -/
def interp (B : Bundle) : Nat →
    ((Expr → St → Res Value) ×
     (ModuleId → Addr → List Stmt → St → Res Unit) ×
     (ModuleId → St → Res Addr))
  | 0 =>
      ( fun _ st => .error (.outOfFuel, st)
      , fun _ _ _ st => .error (.outOfFuel, st)
      , fun _ st => .error (.outOfFuel, st) )
  | fuel + 1 =>
      let prev := interp B fuel
      ( fun e st =>
          match e with
          | .const v => .ok (v, st)
          | .req id =>
              match prev.2.2 id st with
              | .ok (a, st') => .ok (.vref a, st')
              | .error err => .error err
          | .getProp e1 name =>
              match prev.1 e1 st with
              | .ok (.vref a, st') => .ok (heapGet st' a name, st')
              | .ok (_, st') => .error (.notAnObject, st')
              | .error err => .error err
          | .call e1 =>
              match prev.1 e1 st with
              | .ok (.vfn body, st') => prev.1 body st'
              | .ok (_, st') => .error (.notAFunction, st')
              | .error err => .error err
      , fun id a stmts st =>
          match stmts with
          | [] => .ok ((), st)
          | .fail :: _ => .error (.userFailure, st)
          | .exprStmt e :: rest =>
              match prev.1 e st with
              | .ok (_, st') => prev.2.1 id a rest st'
              | .error err => .error err
          | .setExport name e :: rest =>
              match prev.1 e st with
              | .ok (v, st') => prev.2.1 id a rest (setProp st' a name v)
              | .error err => .error err
      , fun id st =>
          match lookupA st.installedModules id with
          | some r => .ok (r.exportsA, st)
          | none =>
              match B id with
              | none => .error (.unknownModule id, st)
              | some stmts =>
                  match prev.2.1 id st.nextAddr stmts (installRecord st id) with
                  | .ok (_, st2) =>
                      .ok (st.nextAddr,
                        { st2 with installedModules :=
                            insertA st2.installedModules id ⟨st.nextAddr, true⟩ })
                  | .error (e2, st2) => .error (wrapInit id e2, st2) )

/-- Expression evaluation at a given fuel. -/
def evalExpr (B : Bundle) (fuel : Nat) : Expr → St → Res Value :=
  (interp B fuel).1

/-- Execution of a module's defining code at a given fuel. -/
def runStmts (B : Bundle) (fuel : Nat) : ModuleId → Addr → List Stmt → St → Res Unit :=
  (interp B fuel).2.1

/-- Modelled from the spec: the Module Loader's `require(id)` (the README's
`__webpack_require__`): on a cache hit return the cached Exports Object
immediately; on a miss pre-insert the record, execute the defining code, mark
the record initialized and return the exports address. -/
def requireMod (B : Bundle) (fuel : Nat) : ModuleId → St → Res Addr :=
  (interp B fuel).2.2

/-- Modelled from the spec: the three import-binding styles of the Export
Binding Resolver. -/
inductive ImportStyle where
  | wholeNamespace : ImportStyle
  | namedProperty : String → ImportStyle
  | defaultProperty : ImportStyle

/-- Modelled from the spec: the Export Binding Resolver: every style first
requires the module (the harmony-import line is identical across styles);
`wholeNamespace` binds the Exports Object reference itself, `namedProperty`
captures the property's value at first use, and `defaultProperty` reads
`exports["default"]`, failing with `MissingDefaultExportError` when absent. -/
def resolveBinding (B : Bundle) (fuel : Nat) (style : ImportStyle) (id : ModuleId)
    (st : St) : Res Value :=
  match requireMod B fuel id st with
  | .error err => .error err
  | .ok (a, st') =>
      match style with
      | .wholeNamespace => .ok (.vref a, st')
      | .namedProperty name => .ok (heapGet st' a name, st')
      | .defaultProperty =>
          match heapLookup st' a "default" with
          | some v => .ok (v, st')
          | none => .error (.missingDefaultError id, st')

/-!
Concrete bundles.  `demoBundle` is the README's scenario: module `utils`
exports the named function `fetchData` returning `[{name:"Tom"},{name:"Mary"}]`
and additionally a default export; module `app` exposes `doSomething`, which
requires `utils` and calls `utils.fetchData()` through the shared Exports
Object.  `cyclicBundle` is the spec's cyclic graph: module `0` requires
module `1`, and module `1` requires module `0` during its own initialization.
`failBundle` holds a module whose defining code fails halfway through.
-/

/-- Module identifier of `utils` in the demo bundle. -/
def utilsId : ModuleId := 0

/-- Module identifier of `app` in the demo bundle. -/
def appId : ModuleId := 1

/-- Module identifier of a module with no default-marked export. -/
def noDefaultId : ModuleId := 2

/-- The original data returned by `fetchData`. -/
def tomMary : Value :=
  .vlist [.vobj [("name", .vstr "Tom")], .vobj [("name", .vstr "Mary")]]

/-- The original `fetchData` function value of `utils`. -/
def fetchDataFn : Value := .vfn (.const tomMary)

/-- The stub installed by the test: a function returning the empty list. -/
def stubFn : Value := .vfn (.const (.vlist []))

/-- The `doSomething` function of `app`: requires `utils` and calls
`utils.fetchData()` through the shared Exports Object. -/
def doSomethingFn : Value := .vfn (.call (.getProp (.req utilsId) "fetchData"))

/-- The demo bundle of the README's mocking scenario. -/
def demoBundle : Bundle := fun id =>
  if id = utilsId then
    some [.setExport "fetchData" (.const fetchDataFn),
          .setExport "default" (.const (.vobj [("tag", .vstr "utilsDefault")]))]
  else if id = appId then
    some [.setExport "doSomething" (.const doSomethingFn)]
  else if id = noDefaultId then
    some [.setExport "other" (.const (.vnum 3))]
  else none

/-- State after requiring `utils` alone from the initial state. -/
def stUtils : St := resSt (requireMod demoBundle 9 utilsId initSt)

/-- State after requiring `app` from the initial state. -/
def stApp : St := resSt (requireMod demoBundle 9 appId initSt)

/-- State after requiring `app` and then resolving a whole-namespace import of
`utils`: both modules loaded, `app` at address 0 and `utils` at address 1. -/
def stBoth : St := resSt (resolveBinding demoBundle 9 .wholeNamespace utilsId stApp)

/-- State after the test harness mocks `utils.fetchData` with the stub. -/
def stMocked : St := setProp stBoth 1 "fetchData" stubFn

/-- The cyclic bundle: module `0` requires module `1` and then defines `late`;
module `1`, during its own initialization, requires module `0`, keeping the
reference and a snapshot of the not-yet-defined `late` member. -/
def cyclicBundle : Bundle := fun id =>
  if id = 0 then
    some [.exprStmt (.req 1), .setExport "late" (.const (.vnum 7))]
  else if id = 1 then
    some [.setExport "aRef" (.req 0),
          .setExport "snapshot" (.getProp (.req 0) "late")]
  else none

/-- State after requiring module `0` of the cyclic bundle. -/
def stCyc : St := resSt (requireMod cyclicBundle 9 0 initSt)

/-- The failing bundle: module `2` defines `x`, then its defining code fails
before it can define `y`; module `3` requires module `2`. -/
def failBundle : Bundle := fun id =>
  if id = 2 then
    some [.setExport "x" (.const (.vnum 1)), .fail,
          .setExport "y" (.const (.vnum 2))]
  else if id = 3 then
    some [.exprStmt (.req 2)]
  else none

/-- State left behind by the failed require of module `2`. -/
def stBroken : St := resSt (requireMod failBundle 9 2 initSt)

/-- State after requiring the module that has no default-marked export. -/
def stNoDefault : St := resSt (requireMod demoBundle 9 noDefaultId initSt)

/-!
Invariants and the reachability relation.  `RegMono` says the registry never
loses an entry nor changes an entry's Exports Object address; `LogMono` says
the execution log only grows at the end; `ExecInv` says no module's defining code
has executed twice and every executed module has a registry record.
-/

/-- Registry monotonicity between two states: every registered module keeps a
record with the same Exports Object address. -/
def RegMono (st st' : St) : Prop :=
  ∀ id r, regFind st id = some r →
    ∃ r', regFind st' id = some r' ∧ r'.exportsA = r.exportsA

/-- The execution log only grows at the end. -/
def LogMono (st st' : St) : Prop := ∃ l, st'.execLog = st.execLog ++ l

/-- The at-most-once execution invariant: the log has no duplicates and every
logged module has a registry record. -/
def ExecInv (st : St) : Prop :=
  st.execLog.Nodup ∧ ∀ id, id ∈ st.execLog → (regFind st id).isSome = true

/-- Preservation package for one loader computation. -/
def StepPres (st st' : St) : Prop :=
  RegMono st st' ∧ LogMono st st' ∧ (ExecInv st → ExecInv st')

/-- Modelled from the spec: a single operation of the external collaborators
(the generated bundle code or the test harness): a `require`, a binding
resolution, an expression evaluation, or an in-place mock of an export. -/
inductive OpStep (B : Bundle) : St → St → Prop where
  | ofRequire : ∀ fuel id st, OpStep B st (resSt (requireMod B fuel id st))
  | ofResolve : ∀ fuel style id st, OpStep B st (resSt (resolveBinding B fuel style id st))
  | ofEval : ∀ fuel e st, OpStep B st (resSt (evalExpr B fuel e st))
  | ofMock : ∀ a name v st, OpStep B st (setProp st a name v)

/-- Finitely many operations in sequence. -/
def Steps (B : Bundle) : St → St → Prop := Relation.ReflTransGen (OpStep B)

/-- States reachable over the process lifetime from the initial state. -/
def Reach (B : Bundle) (st : St) : Prop := Steps B initSt st

/-!
Embedding of `src/webpack.config.js`.  The `entry` field is built by a
`reduce` over the static list of the three entry names, assigning to each
name `m` the value `path.resolve(__dirname, "./test/" ++ m ++ ".js")`.
`path.resolve` and `__dirname` are environment-supplied and kept abstract.
-/

/-- The static list the reduce in `webpack.config.js` runs over. -/
def entryNames : List String :=
  ["import_function", "import_default_module", "import_whole_module"]

/-- The `entry` object of `module.exports` in `webpack.config.js`: a reduce
over `entryNames` starting from the empty object, assigning
`accu[m] = pathResolve dirname ("./test/" ++ m ++ ".js")`. -/
def webpackEntry (pathResolve : String → String → String) (dirname : String) :
    List (String × String) :=
  entryNames.foldl
    (fun accu m => insertA accu m (pathResolve dirname ("./test/" ++ m ++ ".js"))) []

/-!
Lemmas about association lists and the primitive state operations.
-/

/-- Looking up the key just inserted yields the inserted value. -/
theorem lookupA_insertA_self {α β : Type} [DecidableEq α]
    (l : List (α × β)) (k : α) (v : β) : lookupA (insertA l k v) k = some v := by
  induction l with
  | nil => simp [insertA, lookupA]
  | cons p rest ih =>
      obtain ⟨k0, v0⟩ := p
      by_cases h : k = k0
      · simp [insertA, lookupA, h]
      · simp [insertA, lookupA, h, ih, Ne.symm h]

/-- Insertion does not disturb lookups of other keys. -/
theorem lookupA_insertA_ne {α β : Type} [DecidableEq α]
    (l : List (α × β)) (k k' : α) (v : β) (h : k' ≠ k) :
    lookupA (insertA l k v) k' = lookupA l k' := by
  induction l with
  | nil => simp [insertA, lookupA, h]
  | cons p rest ih =>
      obtain ⟨k0, v0⟩ := p
      by_cases hk : k = k0
      · subst hk
        simp [insertA, lookupA, h]
      · by_cases hk' : k' = k0
        · simp [insertA, lookupA, hk, hk']
        · simp [insertA, lookupA, hk, hk', ih]

/-- Insertion preserves presence of any key. -/
theorem lookupA_insertA_isSome {α β : Type} [DecidableEq α]
    (l : List (α × β)) (k k' : α) (v : β) (h : (lookupA l k').isSome = true) :
    (lookupA (insertA l k v) k').isSome = true := by
  by_cases hk : k' = k
  · subst hk
    simp [lookupA_insertA_self]
  · rw [lookupA_insertA_ne l k k' v hk]
    exact h

/-!
Unfolding equations of the interpreter, one per syntactic case.
-/

/-- At fuel zero every computation stops with `outOfFuel`. -/
theorem evalExpr_zero (B : Bundle) (e : Expr) (st : St) :
    evalExpr B 0 e st = .error (.outOfFuel, st) := rfl

/-- Constants evaluate to themselves without touching the state. -/
theorem evalExpr_const (B : Bundle) (n : Nat) (v : Value) (st : St) :
    evalExpr B (n + 1) (.const v) st = .ok (v, st) := rfl

/-- A `require` expression defers to the Loader. -/
theorem evalExpr_req (B : Bundle) (n : Nat) (id : ModuleId) (st : St) :
    evalExpr B (n + 1) (.req id) st =
      match requireMod B n id st with
      | .ok (a, st') => .ok (.vref a, st')
      | .error err => .error err := rfl

/-- A property read evaluates its object and reads off the heap. -/
theorem evalExpr_getProp (B : Bundle) (n : Nat) (e1 : Expr) (name : String) (st : St) :
    evalExpr B (n + 1) (.getProp e1 name) st =
      match evalExpr B n e1 st with
      | .ok (.vref a, st') => .ok (heapGet st' a name, st')
      | .ok (_, st') => .error (.notAnObject, st')
      | .error err => .error err := rfl

/-- A call evaluates its callee and then the function body. -/
theorem evalExpr_call (B : Bundle) (n : Nat) (e1 : Expr) (st : St) :
    evalExpr B (n + 1) (.call e1) st =
      match evalExpr B n e1 st with
      | .ok (.vfn body, st') => evalExpr B n body st'
      | .ok (_, st') => .error (.notAFunction, st')
      | .error err => .error err := rfl

/-- At fuel zero defining code stops with `outOfFuel`. -/
theorem runStmts_zero (B : Bundle) (id : ModuleId) (a : Addr) (l : List Stmt) (st : St) :
    runStmts B 0 id a l st = .error (.outOfFuel, st) := rfl

/-- Empty defining code succeeds at once. -/
theorem runStmts_nil (B : Bundle) (n : Nat) (id : ModuleId) (a : Addr) (st : St) :
    runStmts B (n + 1) id a [] st = .ok ((), st) := rfl

/-- A `fail` statement aborts the defining code. -/
theorem runStmts_fail (B : Bundle) (n : Nat) (id : ModuleId) (a : Addr)
    (rest : List Stmt) (st : St) :
    runStmts B (n + 1) id a (.fail :: rest) st = .error (.userFailure, st) := rfl

/-- An expression statement evaluates for effect and continues. -/
theorem runStmts_exprStmt (B : Bundle) (n : Nat) (id : ModuleId) (a : Addr)
    (e : Expr) (rest : List Stmt) (st : St) :
    runStmts B (n + 1) id a (.exprStmt e :: rest) st =
      match evalExpr B n e st with
      | .ok (_, st') => runStmts B n id a rest st'
      | .error err => .error err := rfl

/-- A `setExport` statement stores the value on the module's Exports Object. -/
theorem runStmts_setExport (B : Bundle) (n : Nat) (id : ModuleId) (a : Addr)
    (name : String) (e : Expr) (rest : List Stmt) (st : St) :
    runStmts B (n + 1) id a (.setExport name e :: rest) st =
      match evalExpr B n e st with
      | .ok (v, st') => runStmts B n id a rest (setProp st' a name v)
      | .error err => .error err := rfl

/-- At fuel zero the Loader stops with `outOfFuel`. -/
theorem requireMod_zero (B : Bundle) (id : ModuleId) (st : St) :
    requireMod B 0 id st = .error (.outOfFuel, st) := rfl

/-- The Loader's full step: cache hit, unknown module, or miss with
pre-insertion, execution of defining code, and finalization. -/
theorem requireMod_succ (B : Bundle) (n : Nat) (id : ModuleId) (st : St) :
    requireMod B (n + 1) id st =
      match lookupA st.installedModules id with
      | some r => .ok (r.exportsA, st)
      | none =>
          match B id with
          | none => .error (.unknownModule id, st)
          | some stmts =>
              match runStmts B n id st.nextAddr stmts (installRecord st id) with
              | .ok (_, st2) =>
                  .ok (st.nextAddr,
                    { st2 with installedModules :=
                        insertA st2.installedModules id ⟨st.nextAddr, true⟩ })
              | .error (e2, st2) => .error (wrapInit id e2, st2) := rfl

/-- A cache hit returns the cached Exports Object address, state untouched. -/
theorem requireMod_hit (B : Bundle) (n : Nat) (id : ModuleId) (st : St)
    (r : ModuleRecord) (h : regFind st id = some r) :
    requireMod B (n + 1) id st = .ok (r.exportsA, st) := by
  rw [requireMod_succ]
  rw [regFind] at h
  rw [h]

/-- Requiring a module the bundle does not know fails. -/
theorem requireMod_unknown (B : Bundle) (n : Nat) (id : ModuleId) (st : St)
    (h1 : lookupA st.installedModules id = none) (h2 : B id = none) :
    requireMod B (n + 1) id st = .error (.unknownModule id, st) := by
  rw [requireMod_succ, h1, h2]

/-- A cache miss whose defining code succeeds: the record is finalized with
the pre-allocated Exports Object address. -/
theorem requireMod_miss_ok (B : Bundle) (n : Nat) (id : ModuleId) (st : St)
    (stmts : List Stmt) (u : Unit) (st2 : St)
    (h1 : lookupA st.installedModules id = none) (h2 : B id = some stmts)
    (h3 : runStmts B n id st.nextAddr stmts (installRecord st id) = .ok (u, st2)) :
    requireMod B (n + 1) id st =
      .ok (st.nextAddr,
        { st2 with installedModules :=
            insertA st2.installedModules id ⟨st.nextAddr, true⟩ }) := by
  rw [requireMod_succ]
  simp only [h1, h2, h3]

/-- A cache miss whose defining code fails: the error is surfaced as a module
initialization failure and the partial state is kept. -/
theorem requireMod_miss_error (B : Bundle) (n : Nat) (id : ModuleId) (st : St)
    (stmts : List Stmt) (e2 : LErr) (st2 : St)
    (h1 : lookupA st.installedModules id = none) (h2 : B id = some stmts)
    (h3 : runStmts B n id st.nextAddr stmts (installRecord st id) = .error (e2, st2)) :
    requireMod B (n + 1) id st = .error (wrapInit id e2, st2) := by
  rw [requireMod_succ]
  simp only [h1, h2, h3]

/-- StepPres is reflexive. -/
theorem stepPres_refl (st : St) : StepPres st st :=
  ⟨fun _ r h => ⟨r, h, rfl⟩, ⟨[], (List.append_nil _).symm⟩, id⟩

/-- StepPres composes. -/
theorem stepPres_trans {s1 s2 s3 : St} (h12 : StepPres s1 s2) (h23 : StepPres s2 s3) :
    StepPres s1 s3 := by
  obtain ⟨m12, ⟨l12, hl12⟩, i12⟩ := h12
  obtain ⟨m23, ⟨l23, hl23⟩, i23⟩ := h23
  refine ⟨?_, ⟨l12 ++ l23, by rw [hl23, hl12, List.append_assoc]⟩, fun h => i23 (i12 h)⟩
  intro id r h
  obtain ⟨r', h', he'⟩ := m12 id r h
  obtain ⟨r'', h'', he''⟩ := m23 id r' h'
  exact ⟨r'', h'', he''.trans he'⟩

/-- Mocking a property changes only the heap. -/
theorem setProp_stepPres (st : St) (a : Addr) (name : String) (v : Value) :
    StepPres st (setProp st a name v) :=
  ⟨fun _ r h => ⟨r, h, rfl⟩, ⟨[], (List.append_nil _).symm⟩, id⟩

/-- Pre-inserting the record of an unregistered module preserves the registry
and the invariant, and appends exactly that module to the log. -/
theorem installRecord_stepPres (st : St) (id : ModuleId)
    (h : regFind st id = none) : StepPres st (installRecord st id) := by
  refine ⟨?_, ⟨[id], rfl⟩, ?_⟩
  · intro j r hj
    refine ⟨r, ?_, rfl⟩
    have hne : j ≠ id := by
      intro he
      rw [he, regFind] at hj
      rw [regFind] at h
      rw [h] at hj
      exact Option.noConfusion hj
    show lookupA (insertA st.installedModules id ⟨st.nextAddr, false⟩) j = some r
    rw [lookupA_insertA_ne _ _ _ _ hne]
    exact hj
  · rintro ⟨hnd, hmem⟩
    have hid : id ∉ st.execLog := by
      intro hmem'
      have := hmem id hmem'
      rw [regFind] at h
      rw [regFind, h] at this
      exact Bool.noConfusion this
    constructor
    · have := List.Nodup.concat hid hnd
      simpa [List.concat_eq_append] using this
    · intro j hj
      rcases List.mem_append.mp hj with hj | hj
      · have := hmem j hj
        exact lookupA_insertA_isSome _ _ _ _ this
      · have hji : j = id := by simpa using hj
        subst hji
        show (lookupA (insertA st.installedModules j ⟨st.nextAddr, false⟩) j).isSome = true
        rw [lookupA_insertA_self]
        rfl

/-- Every loader computation preserves the registry monotonically, only
appends to the execution log, and preserves the at-most-once invariant. -/
theorem stepPres_all (B : Bundle) : ∀ fuel : Nat,
    (∀ e st, StepPres st (resSt (evalExpr B fuel e st))) ∧
    (∀ id a l st, StepPres st (resSt (runStmts B fuel id a l st))) ∧
    (∀ id st, StepPres st (resSt (requireMod B fuel id st))) := by
  intro fuel
  induction fuel with
  | zero =>
      refine ⟨?_, ?_, ?_⟩
      · intro e st
        rw [evalExpr_zero]
        exact stepPres_refl st
      · intro id a l st
        rw [runStmts_zero]
        exact stepPres_refl st
      · intro id st
        rw [requireMod_zero]
        exact stepPres_refl st
  | succ n ih =>
      obtain ⟨ihE, ihR, ihQ⟩ := ih
      refine ⟨?_, ?_, ?_⟩
      · intro e st
        cases e with
        | const v =>
            rw [evalExpr_const]
            exact stepPres_refl st
        | req id =>
            rw [evalExpr_req]
            cases hq : requireMod B n id st with
            | ok p =>
                obtain ⟨a, st'⟩ := p
                have h := ihQ id st
                rw [hq] at h
                exact h
            | error p =>
                have h := ihQ id st
                rw [hq] at h
                exact h
        | getProp e1 name =>
            rw [evalExpr_getProp]
            cases he : evalExpr B n e1 st with
            | ok p =>
                obtain ⟨v, st'⟩ := p
                have h := ihE e1 st
                rw [he] at h
                cases v
                all_goals exact h
            | error p =>
                have h := ihE e1 st
                rw [he] at h
                exact h
        | call e1 =>
            rw [evalExpr_call]
            cases he : evalExpr B n e1 st with
            | ok p =>
                obtain ⟨v, st'⟩ := p
                have h := ihE e1 st
                rw [he] at h
                cases v
                case vfn body => exact stepPres_trans h (ihE body st')
                all_goals exact h
            | error p =>
                have h := ihE e1 st
                rw [he] at h
                exact h
      · intro id a l st
        cases l with
        | nil =>
            rw [runStmts_nil]
            exact stepPres_refl st
        | cons s rest =>
            cases s with
            | fail =>
                rw [runStmts_fail]
                exact stepPres_refl st
            | exprStmt e =>
                rw [runStmts_exprStmt]
                cases he : evalExpr B n e st with
                | ok p =>
                    obtain ⟨v, st'⟩ := p
                    have h := ihE e st
                    rw [he] at h
                    exact stepPres_trans h (ihR id a rest st')
                | error p =>
                    have h := ihE e st
                    rw [he] at h
                    exact h
            | setExport name e =>
                rw [runStmts_setExport]
                cases he : evalExpr B n e st with
                | ok p =>
                    obtain ⟨v, st'⟩ := p
                    have h := ihE e st
                    rw [he] at h
                    exact stepPres_trans h (stepPres_trans
                      (setProp_stepPres st' a name v) (ihR id a rest (setProp st' a name v)))
                | error p =>
                    have h := ihE e st
                    rw [he] at h
                    exact h
      · intro id st
        cases hl : lookupA st.installedModules id with
        | some r =>
            rw [requireMod_hit B n id st r hl]
            exact stepPres_refl st
        | none =>
            cases hb : B id with
            | none =>
                rw [requireMod_unknown B n id st hl hb]
                exact stepPres_refl st
            | some stmts =>
                have hinst : StepPres st (installRecord st id) :=
                  installRecord_stepPres st id hl
                cases hr : runStmts B n id st.nextAddr stmts (installRecord st id) with
                | ok p =>
                    obtain ⟨u, st2⟩ := p
                    have h2 := ihR id st.nextAddr stmts (installRecord st id)
                    rw [hr] at h2
                    have hfind : regFind (installRecord st id) id = some ⟨st.nextAddr, false⟩ := by
                      show lookupA (insertA st.installedModules id ⟨st.nextAddr, false⟩) id = _
                      exact lookupA_insertA_self _ _ _
                    obtain ⟨r2, hr2, he2⟩ := h2.1 id ⟨st.nextAddr, false⟩ hfind
                    rw [requireMod_miss_ok B n id st stmts u st2 hl hb hr]
                    show StepPres st
                      { st2 with installedModules :=
                          insertA st2.installedModules id ⟨st.nextAddr, true⟩ }
                    refine stepPres_trans hinst (stepPres_trans h2 ?_)
                    refine ⟨?_, ⟨[], (List.append_nil _).symm⟩, ?_⟩
                    · intro j rj hj
                      by_cases hji : j = id
                      · subst hji
                        refine ⟨⟨st.nextAddr, true⟩, ?_, ?_⟩
                        · show lookupA (insertA st2.installedModules j ⟨st.nextAddr, true⟩) j = _
                          exact lookupA_insertA_self _ _ _
                        · have hrr : r2 = rj := Option.some.inj (hr2.symm.trans hj)
                          show st.nextAddr = rj.exportsA
                          rw [← hrr, he2]
                      · refine ⟨rj, ?_, rfl⟩
                        show lookupA (insertA st2.installedModules id ⟨st.nextAddr, true⟩) j = some rj
                        rw [lookupA_insertA_ne _ _ _ _ hji]
                        exact hj
                    · rintro ⟨hnd, hmem⟩
                      refine ⟨hnd, ?_⟩
                      intro j hj
                      have hs := hmem j hj
                      show (lookupA (insertA st2.installedModules id ⟨st.nextAddr, true⟩) j).isSome = true
                      exact lookupA_insertA_isSome _ _ _ _ hs
                | error p =>
                    obtain ⟨e2, st2⟩ := p
                    have h2 := ihR id st.nextAddr stmts (installRecord st id)
                    rw [hr] at h2
                    rw [requireMod_miss_error B n id st stmts e2 st2 hl hb hr]
                    exact stepPres_trans hinst h2

/-- Every single external operation preserves registry, log, and invariant. -/
theorem opStep_stepPres {B : Bundle} {st st' : St} (h : OpStep B st st') :
    StepPres st st' := by
  cases h with
  | ofRequire fuel id st => exact (stepPres_all B fuel).2.2 id st
  | ofEval fuel e st => exact (stepPres_all B fuel).1 e st
  | ofMock a name v st => exact setProp_stepPres st a name v
  | ofResolve fuel style id st =>
      have h := (stepPres_all B fuel).2.2 id st
      show StepPres st (resSt (resolveBinding B fuel style id st))
      rw [resolveBinding]
      cases hq : requireMod B fuel id st with
      | ok p =>
          obtain ⟨a, st'⟩ := p
          rw [hq] at h
          cases style with
          | wholeNamespace => exact h
          | namedProperty name => exact h
          | defaultProperty =>
              cases hd : heapLookup st' a "default" with
              | some v =>
                  simp only [hd]
                  exact h
              | none =>
                  simp only [hd]
                  exact h
      | error p =>
          rw [hq] at h
          exact h

/-- Any finite sequence of operations preserves registry, log, and invariant. -/
theorem steps_stepPres {B : Bundle} {st st' : St} (h : Steps B st st') :
    StepPres st st' := by
  induction h with
  | refl => exact stepPres_refl st
  | tail _ hstep ih => exact stepPres_trans ih (opStep_stepPres hstep)

/-- The initial state satisfies the at-most-once invariant. -/
theorem execInv_initSt : ExecInv initSt :=
  ⟨List.nodup_nil, fun _ h => absurd h (List.not_mem_nil _)⟩

/-- Every reachable state satisfies the at-most-once invariant. -/
theorem reach_execInv {B : Bundle} {st : St} (h : Reach B st) : ExecInv st :=
  (steps_stepPres h).2.2 execInv_initSt

/-- A successful `require` leaves a registry record holding exactly the
returned Exports Object address. -/
theorem requireMod_ok_regFind {B : Bundle} {fuel : Nat} {id : ModuleId}
    {st : St} {a : Addr} {st' : St}
    (h : requireMod B fuel id st = .ok (a, st')) :
    ∃ ini, regFind st' id = some ⟨a, ini⟩ := by
  cases fuel with
  | zero =>
      rw [requireMod_zero] at h
      exact absurd h (by simp)
  | succ n =>
      cases hl : lookupA st.installedModules id with
      | some r =>
          rw [requireMod_hit B n id st r hl] at h
          have h' := Except.ok.inj h
          have ha : r.exportsA = a := congrArg Prod.fst h'
          have hst : st = st' := congrArg Prod.snd h'
          refine ⟨r.inited, ?_⟩
          rw [← hst]
          show lookupA st.installedModules id = some ⟨a, r.inited⟩
          rw [hl, ← ha]
      | none =>
          cases hb : B id with
          | none =>
              rw [requireMod_unknown B n id st hl hb] at h
              exact absurd h (by simp)
          | some stmts =>
              cases hr : runStmts B n id st.nextAddr stmts (installRecord st id) with
              | ok p =>
                  obtain ⟨u, st2⟩ := p
                  rw [requireMod_miss_ok B n id st stmts u st2 hl hb hr] at h
                  have h' := Except.ok.inj h
                  have ha : st.nextAddr = a := congrArg Prod.fst h'
                  have hst : ({ st2 with installedModules := insertA st2.installedModules id ⟨st.nextAddr, true⟩ } : St) = st' := congrArg Prod.snd h'
                  refine ⟨true, ?_⟩
                  rw [← hst]
                  show lookupA (insertA st2.installedModules id ⟨st.nextAddr, true⟩) id = some ⟨a, true⟩
                  rw [lookupA_insertA_self, ha]
              | error p =>
                  obtain ⟨e2, st2⟩ := p
                  rw [requireMod_miss_error B n id st stmts e2 st2 hl hb hr] at h
                  exact absurd h (by simp)

/-!
The claims.
-/

/-- C1: For every module identifier X, calling require(X) twice in succession
returns reference-identical Exports Objects (the very same heap address, not a
copy): whatever a first `require` returns, a second `require` of the same id
from the resulting state returns the identical address and leaves the state
untouched. -/
theorem require_twice_same_exports (B : Bundle) (fuel n : Nat) (id : ModuleId)
    (st : St) (a : Addr) (st' : St)
    (h : requireMod B fuel id st = .ok (a, st')) :
    requireMod B (n + 1) id st' = .ok (a, st') := by
  obtain ⟨ini, hfind⟩ := requireMod_ok_regFind h
  exact requireMod_hit B n id st' ⟨a, ini⟩ hfind

/-- Witness for C1: the cyclic bundle's module 0 is required twice; the second
call returns the identical Exports Object address 0 and the identical state. -/
theorem require_twice_same_exports_witness :
    requireMod cyclicBundle 9 0 stCyc = .ok (0, stCyc) :=
  require_twice_same_exports cyclicBundle 9 8 0 initSt 0 stCyc rfl

/-- C2: In every reachable process state, each module's defining code has
executed at most once (the execution log counts every id at most once), and a
`require` of any registered module is a pure cache read: it returns the cached
Exports Object address and the state completely unchanged (no re-execution, no
effect on any other module). -/
theorem defining_code_at_most_once (B : Bundle) (st : St) (h : Reach B st) :
    (∀ X : ModuleId, st.execLog.count X ≤ 1) ∧
    (∀ (X : ModuleId) (r : ModuleRecord) (n : Nat),
      regFind st X = some r → requireMod B (n + 1) X st = .ok (r.exportsA, st)) := by
  constructor
  · intro X
    exact List.nodup_iff_count_le_one.mp (reach_execInv h).1 X
  · intro X r n hr
    exact requireMod_hit B n X st r hr

/-- Witness for C2: after one `require` of `utils`, its defining code has run
exactly once and a repeated `require` is a pure cache read. -/
theorem defining_code_at_most_once_witness :
    stUtils.execLog.count utilsId ≤ 1 ∧
    requireMod demoBundle 9 utilsId stUtils = .ok (0, stUtils) := by
  have h := defining_code_at_most_once demoBundle stUtils
    (Relation.ReflTransGen.single (OpStep.ofRequire 9 utilsId initSt))
  exact ⟨h.1 utilsId, h.2 utilsId ⟨0, true⟩ 8 rfl⟩

/-- C3: Once a module is registered, every later operation sequence leaves it
registered with the same single Exports Object address, and any successful
`require` of it can only return that address: no operation ever creates a
second Exports Object for an already-registered identifier. -/
theorem exports_object_unique (B : Bundle) (st st' : St) (h : Steps B st st')
    (X : ModuleId) (r : ModuleRecord) (hr : regFind st X = some r) :
    (∃ r', regFind st' X = some r' ∧ r'.exportsA = r.exportsA) ∧
    (∀ (n : Nat) (a : Addr) (st2 : St),
      requireMod B n X st' = .ok (a, st2) → a = r.exportsA) := by
  obtain ⟨r', hr', he'⟩ := (steps_stepPres h).1 X r hr
  refine ⟨⟨r', hr', he'⟩, ?_⟩
  intro n a st2 hok
  cases n with
  | zero =>
      rw [requireMod_zero] at hok
      exact absurd hok (by simp)
  | succ m =>
      rw [requireMod_hit B m X st' r' hr'] at hok
      have hfst := congrArg Prod.fst (Except.ok.inj hok)
      rw [← he']
      exact hfst.symm

/-- Witness for C3: after `utils` is registered, a harness mock of `fetchData`
leaves `utils` registered with its original Exports Object address 0. -/
theorem exports_object_unique_witness :
    ∃ r', regFind (setProp stUtils 0 "fetchData" stubFn) utilsId = some r' ∧
      r'.exportsA = 0 :=
  (exports_object_unique demoBundle stUtils (setProp stUtils 0 "fetchData" stubFn)
    (Relation.ReflTransGen.single (OpStep.ofMock 0 "fetchData" stubFn stUtils))
    utilsId ⟨0, true⟩ rfl).1

/-- C4: In the cyclic bundle (module 0 requires module 1, which requires
module 0 during its own initialization), `require` terminates successfully:
module 1 received module 0's in-progress Exports Object (the same address 0),
observed its not-yet-defined member as undefined, each module executed exactly
once, and no duplicate record was created; in general the Loader registers the
record (with the pre-allocated address and `inited := false`) before the
defining code executes. -/
theorem cyclic_require_terminates :
    requireMod cyclicBundle 9 0 initSt = .ok (0, stCyc) ∧
    heapGet stCyc 1 "aRef" = .vref 0 ∧
    heapGet stCyc 1 "snapshot" = .vundef ∧
    heapGet stCyc 0 "late" = .vnum 7 ∧
    stCyc.execLog = [0, 1] ∧
    regFind stCyc 0 = some ⟨0, true⟩ ∧
    regFind stCyc 1 = some ⟨1, true⟩ ∧
    (∀ (st : St) (id : ModuleId),
      regFind (installRecord st id) id = some ⟨st.nextAddr, false⟩) := by
  refine ⟨rfl, rfl, rfl, rfl, rfl, rfl, rfl, ?_⟩
  intro st id
  show lookupA (insertA st.installedModules id ⟨st.nextAddr, false⟩) id = _
  exact lookupA_insertA_self _ _ _

/-- C5: Mutating a named export in place is visible to every holder of the
same Exports Object: reading the property after `setProp` yields the new value
for any state and address; concretely, after `app` and a
whole-namespace import of `utils` are loaded, stubbing `utils.fetchData` makes `app`'s
`doSomething` observe the empty list, while without the stub it observes the
original Tom/Mary list. -/
theorem whole_namespace_mock_visible :
    (∀ (st : St) (a : Addr) (f : String) (v : Value),
      heapGet (setProp st a f v) a f = v) ∧
    resolveBinding demoBundle 9 .wholeNamespace utilsId stApp = .ok (.vref 1, stBoth) ∧
    evalExpr demoBundle 9 (.call (.getProp (.const (.vref 0)) "doSomething")) stMocked =
      .ok (.vlist [], stMocked) ∧
    evalExpr demoBundle 9 (.call (.getProp (.const (.vref 0)) "doSomething")) stBoth =
      .ok (tomMary, stBoth) := by
  refine ⟨?_, rfl, rfl, rfl⟩
  intro st a f v
  simp [heapGet, heapLookup, setProp, lookupA_insertA_self]

/-- C6: A `NamedProperty` import captures the export's value at first use:
the import yields the original `fetchData` function; after the harness mocks
the export, a fresh read through the Exports Object sees the stub, but calling
the captured value still produces the original Tom/Mary list. -/
theorem named_import_value_capture :
    resolveBinding demoBundle 9 (.namedProperty "fetchData") utilsId initSt =
      .ok (fetchDataFn, stUtils) ∧
    heapGet (setProp stUtils 0 "fetchData" stubFn) 0 "fetchData" = stubFn ∧
    evalExpr demoBundle 9 (.call (.const fetchDataFn))
      (setProp stUtils 0 "fetchData" stubFn) =
      .ok (tomMary, setProp stUtils 0 "fetchData" stubFn) ∧
    fetchDataFn ≠ stubFn := by
  refine ⟨rfl, rfl, rfl, ?_⟩
  intro hcontra
  have h1 := Value.vfn.inj hcontra
  have h2 := Expr.const.inj h1
  have h3 := Value.vlist.inj h2
  exact List.noConfusion h3

/-- C7: When module 2's defining code fails, `require` surfaces
`ModuleInitializationError` identifying module 2 — also through an importing
module 3, to the original caller; the partially populated Exports Object
(holding `x` but not `y`) stays in the Registry with no rollback, and a
subsequent `require` of module 2 returns that broken object with the state
completely unchanged, so the defining code is not re-executed. -/
theorem module_init_failure_kept :
    requireMod failBundle 9 2 initSt = .error (.moduleInitError 2, stBroken) ∧
    regFind stBroken 2 = some ⟨0, false⟩ ∧
    heapGet stBroken 0 "x" = .vnum 1 ∧
    heapLookup stBroken 0 "y" = none ∧
    stBroken.execLog = [2] ∧
    requireMod failBundle 9 2 stBroken = .ok (0, stBroken) ∧
    requireMod failBundle 9 3 initSt =
      .error (.moduleInitError 2, resSt (requireMod failBundle 9 3 initSt)) :=
  ⟨rfl, rfl, rfl, rfl, rfl, rfl, rfl⟩

/-- C8: After the underlying `require` succeeds, a `DefaultProperty`
resolution fails with `MissingDefaultExportError` exactly when the module has
no default-marked export, and otherwise returns the value stored under the
"default" key of its Exports Object. -/
theorem default_resolution (B : Bundle) (fuel : Nat) (id : ModuleId) (st : St)
    (a : Addr) (st' : St) (h : requireMod B fuel id st = .ok (a, st')) :
    (heapLookup st' a "default" = none →
      resolveBinding B fuel .defaultProperty id st =
        .error (.missingDefaultError id, st')) ∧
    (∀ v, heapLookup st' a "default" = some v →
      resolveBinding B fuel .defaultProperty id st = .ok (v, st')) := by
  constructor
  · intro hd
    rw [resolveBinding]
    simp only [h, hd]
  · intro v hd
    rw [resolveBinding]
    simp only [h, hd]

/-- Witness for C8: resolving the default import of `utils` (which has a
default export) returns it, and resolving it on the module without one fails
with `MissingDefaultExportError`. -/
theorem default_resolution_witness :
    resolveBinding demoBundle 9 .defaultProperty utilsId initSt =
      .ok (.vobj [("tag", .vstr "utilsDefault")], stUtils) ∧
    resolveBinding demoBundle 9 .defaultProperty noDefaultId initSt =
      .error (.missingDefaultError noDefaultId, stNoDefault) :=
  ⟨(default_resolution demoBundle 9 utilsId initSt 0 stUtils rfl).2
      (.vobj [("tag", .vstr "utilsDefault")]) rfl,
   (default_resolution demoBundle 9 noDefaultId initSt 0 stNoDefault rfl).1 rfl⟩

/-- C9: The bundler configuration's entry map, built by the reduce over the
static three-element list, holds exactly those three keys in order, each
mapped to the resolved path of `./test/<name>.js`. -/
theorem webpack_entry_exact (pathResolve : String → String → String) (dirname : String) :
    (webpackEntry pathResolve dirname).map Prod.fst = entryNames ∧
    lookupA (webpackEntry pathResolve dirname) "import_function" =
      some (pathResolve dirname "./test/import_function.js") ∧
    lookupA (webpackEntry pathResolve dirname) "import_default_module" =
      some (pathResolve dirname "./test/import_default_module.js") ∧
    lookupA (webpackEntry pathResolve dirname) "import_whole_module" =
      some (pathResolve dirname "./test/import_whole_module.js") :=
  ⟨rfl, rfl, rfl, rfl⟩

/-- C10: On a cache hit, `require` returns the cached Exports Object address
and the state completely unchanged: the Registry, the heap, and the execution
log of the resulting state are those of the input state, record for record. -/
theorem cache_hit_frame (B : Bundle) (n : Nat) (id : ModuleId) (st : St)
    (r : ModuleRecord) (h : regFind st id = some r) :
    requireMod B (n + 1) id st = .ok (r.exportsA, st) ∧
    (∀ j, regFind (resSt (requireMod B (n + 1) id st)) j = regFind st j) ∧
    (resSt (requireMod B (n + 1) id st)).heap = st.heap ∧
    (resSt (requireMod B (n + 1) id st)).execLog = st.execLog := by
  have he := requireMod_hit B n id st r h
  refine ⟨he, ?_, ?_, ?_⟩ <;> rw [he] <;> intros <;> rfl

/-- Witness for C10: a cache hit on `app` in the fully loaded state returns
its Exports Object address 0 and changes nothing. -/
theorem cache_hit_frame_witness :
    requireMod demoBundle 9 appId stBoth = .ok (0, stBoth) ∧
    (∀ j, regFind (resSt (requireMod demoBundle 9 appId stBoth)) j = regFind stBoth j) ∧
    (resSt (requireMod demoBundle 9 appId stBoth)).heap = stBoth.heap ∧
    (resSt (requireMod demoBundle 9 appId stBoth)).execLog = stBoth.execLog :=
  cache_hit_frame demoBundle 8 appId stBoth ⟨0, true⟩ rfl
